import Mathlib

/-!
Verification of the event contribution lifecycle implemented in
src/public/js/teacher-event-contribute.js.

The embedding models the stored JambEvent document (schema at lines
719-753 of the source) and the two server route handlers that mutate it:

* POST /api/teacher/events/:eventId/contribute  (lines 1494-1607),
  embedded as the function contribute below;
* POST /api/host/events/:eventId/publish        (lines 1339-1380),
  embedded as the function publish below.

Persistence discipline of the source: every error path of a handler
returns before the single event.save() call, so the stored document
changes only when the handler reaches its success path.  The embedding
therefore returns Except: an error value corresponds to a request that
never saved, and the wrappers contributeStored / publishStored expose
the resulting stored state.  The handler mutates its in-memory copy of
the document before the per-question validation map runs, but that copy
is discarded when the map throws; the embedding validates first and
builds the new document only on success, which is observationally the
same for the stored state.

Mongoose ObjectIds are modelled as Nat, status as a closed enum, and
the JS number fields as Nat (counts, quota) or Int (answer index, which
arrives from the request body and may be out of range).
-/

namespace Smart

/-- Decidable equality on Except values, used to evaluate the handlers
on concrete inputs. -/
instance {ε α : Type} [DecidableEq ε] [DecidableEq α] : DecidableEq (Except ε α) :=
  fun a b =>
    match a, b with
    | .ok x, .ok y =>
      if h : x = y then isTrue (congrArg Except.ok h)
      else isFalse fun hc => h (Except.ok.inj hc)
    | .error x, .error y =>
      if h : x = y then isTrue (congrArg Except.error h)
      else isFalse fun hc => h (Except.error.inj hc)
    | .ok _, .error _ => isFalse fun hc => Except.noConfusion hc
    | .error _, .ok _ => isFalse fun hc => Except.noConfusion hc

/-- Status enum of the jambEventSchema: active, completed, published. -/
inductive EventStatus where
  | active
  | completed
  | published
deriving DecidableEq

/-- A stored question, as embedded in a subject slot (schema lines 735-743). -/
@[ext]
structure Question where
  question : String
  options : List String
  correctAnswer : Int
  imageUrls : List String
  imagePublicIds : List String
  teacherId : Option Nat
  teacherName : String
deriving DecidableEq

/-- One ledger entry of a subject slot (schema lines 745-749). -/
@[ext]
structure TeacherContribution where
  teacherId : Nat
  teacherName : String
  questionCount : Nat
deriving DecidableEq

/-- A subject slot of an event (schema lines 733-750). -/
@[ext]
structure SubjectSlot where
  subject : String
  questions : List Question
  questionCount : Nat
  teacherContributions : List TeacherContribution
deriving DecidableEq

/-- The stored event document, restricted to the fields the lifecycle
logic reads or writes (schema lines 720-753). -/
@[ext]
structure Event where
  questionsPerSubject : Nat
  status : EventStatus
  subjects : List SubjectSlot
  totalQuestions : Nat
deriving DecidableEq

/-- One element of req.body.questions as the contribute handler sees it:
correctAnswer may be absent (the handler tests it against undefined). -/
@[ext]
structure QuestionInput where
  question : String
  options : List String
  correctAnswer : Option Int
  imageUrls : List String
  imagePublicIds : List String
deriving DecidableEq

/-- The JSON body of a successful contribute response (lines 1594-1599). -/
@[ext]
structure ContribResult where
  questionCount : Nat
  totalSubjectQuestions : Nat
  eventStatus : EventStatus
deriving DecidableEq

/-- The error responses of the contribute handler, in source order:
400 no questions, 404 event, 400 not active, 400 subject missing, and
the 500 produced when the per-question validation map throws. -/
inductive ContribError where
  | noQuestions
  | eventNotFound
  | notActive
  | subjectNotFound
  | invalid (msg : String)
deriving DecidableEq

/-- The error responses of the publish handler: 404, or 400 listing every
short subject as (subject, questionCount, questionsPerSubject). -/
inductive PublishError where
  | eventNotFound
  | incomplete (subjects : List (String × Nat × Nat))
deriving DecidableEq

/-- The JS String.prototype.trim used at lines 1544-1545: strip leading
and trailing whitespace.  Implemented over the character list so that
it evaluates by reduction. -/
def trimText (s : String) : String :=
  String.mk ((s.data.dropWhile Char.isWhitespace).reverse.dropWhile Char.isWhitespace).reverse

/-- Per-question validation of the contribute handler (lines 1529-1541),
with the exact decision order and throw messages of the source: missing
or empty required fields, then the options length, then the answer range.
Empty option strings pass, because the source never inspects the option
texts beyond trimming them. -/
def validateQuestion (teacherId : Nat) (teacherName : String) (q : QuestionInput) :
    Except String Question :=
  if q.question = "" ∨ q.correctAnswer = none then
    .error "Invalid question data: missing required fields"
  else if q.options.length ≠ 4 then
    .error "Each question must have exactly 4 options"
  else if q.correctAnswer.getD 0 < 0 ∨ 3 < q.correctAnswer.getD 0 then
    .error "Correct answer must be between 0 and 3"
  else
    .ok { question := trimText q.question,
          options := q.options.map trimText,
          correctAnswer := q.correctAnswer.getD 0,
          imageUrls := q.imageUrls,
          imagePublicIds := q.imagePublicIds,
          teacherId := some teacherId,
          teacherName := teacherName }

/-- The stored question built from a valid input (the ok payload of
validateQuestion): trimmed texts plus attribution. -/
def toQuestion (teacherId : Nat) (teacherName : String) (q : QuestionInput) : Question :=
  { question := trimText q.question,
    options := q.options.map trimText,
    correctAnswer := q.correctAnswer.getD 0,
    imageUrls := q.imageUrls,
    imagePublicIds := q.imagePublicIds,
    teacherId := some teacherId,
    teacherName := teacherName }

/-- An input passes validateQuestion exactly when this predicate holds:
non-empty question text, a present answer index in [0, 3], and exactly 4
options (of any text, empty included). -/
def isValidInput (q : QuestionInput) : Bool :=
  decide (q.question ≠ "") &&
    (match q.correctAnswer with
     | none => false
     | some c => decide (0 ≤ c) && decide (c ≤ 3)) &&
    decide (q.options.length = 4)

/-- The questions.map of the handler (lines 1529-1552): each input is
validated and transformed in order, and the first failure aborts the
whole batch with that failure message. -/
def validateBatch (teacherId : Nat) (teacherName : String) :
    List QuestionInput → Except String (List Question)
  | [] => .ok []
  | q :: rest =>
    match validateQuestion teacherId teacherName q with
    | .error msg => .error msg
    | .ok q' =>
      match validateBatch teacherId teacherName rest with
      | .error msg => .error msg
      | .ok rest' => .ok (q' :: rest')

/-- The in-place update of the first matching ledger entry performed at
lines 1558-1563 via find followed by mutation. -/
def setFirstContribution (teacherId : Nat) (n : Nat) :
    List TeacherContribution → List TeacherContribution
  | [] => []
  | tc :: rest =>
    if tc.teacherId = teacherId then { tc with questionCount := n } :: rest
    else tc :: setFirstContribution teacherId n rest

/-- The ledger upsert of lines 1557-1570: overwrite the first entry of
this teacher when one exists, otherwise push a fresh entry. -/
def upsertContribution (teacherId : Nat) (teacherName : String) (n : Nat)
    (ledger : List TeacherContribution) : List TeacherContribution :=
  if ledger.any fun tc => decide (tc.teacherId = teacherId) then
    setFirstContribution teacherId n ledger
  else
    ledger ++ [{ teacherId := teacherId, teacherName := teacherName, questionCount := n }]

/-- The slot mutation of lines 1523-1570: drop every question already
attributed to this teacher, append the validated batch, recount, and
upsert the ledger entry with the raw batch length. -/
def updatedSlot (slot : SubjectSlot) (teacherId : Nat) (teacherName : String)
    (batchLen : Nat) (newQuestions : List Question) : SubjectSlot :=
  let kept := slot.questions.filter fun q => decide (q.teacherId ≠ some teacherId)
  let questions' := kept ++ newQuestions
  { slot with
    questions := questions',
    questionCount := questions'.length,
    teacherContributions :=
      upsertContribution teacherId teacherName batchLen slot.teacherContributions }

/-- The reduce of line 1573 recomputing totalQuestions from the cached
per-slot counts. -/
def totalOf (subjects : List SubjectSlot) : Nat :=
  subjects.foldl (fun total s => total + s.questionCount) 0

/-- The completeness test of lines 1576-1578: every slot holds at least
questionsPerSubject questions (greater-or-equal, not equal). -/
def allSubjectsComplete (questionsPerSubject : Nat) (subjects : List SubjectSlot) : Bool :=
  subjects.all fun s => decide (questionsPerSubject ≤ s.questionCount)

/-- The contribute route handler (lines 1494-1607) as a function of the
stored event (none when no document matches the id) and the request
data.  Checks appear in source order: empty batch, missing event, non
active status, missing subject slot, then the validation map; the
success branch rebuilds the slot, the ledger, totalQuestions and the
status exactly as lines 1554-1587 do before the single save. -/
def contribute (ev? : Option Event) (teacherId : Nat) (teacherName teacherSubject : String)
    (questions : List QuestionInput) : Except ContribError (Event × ContribResult) :=
  if questions.length = 0 then
    .error .noQuestions
  else
    match ev? with
    | none => .error .eventNotFound
    | some event =>
      if event.status ≠ EventStatus.active then
        .error .notActive
      else
        let subjectIndex := event.subjects.findIdx fun s => decide (s.subject = teacherSubject)
        match event.subjects[subjectIndex]? with
        | none => .error .subjectNotFound
        | some slot =>
          match validateBatch teacherId teacherName questions with
          | .error msg => .error (.invalid msg)
          | .ok newQuestions =>
            let slot' := updatedSlot slot teacherId teacherName questions.length newQuestions
            let subjects' := event.subjects.set subjectIndex slot'
            let status' :=
              if allSubjectsComplete event.questionsPerSubject subjects'
                  ∧ event.status = EventStatus.active then
                EventStatus.completed
              else event.status
            let event' := { event with
                            subjects := subjects',
                            totalQuestions := totalOf subjects',
                            status := status' }
            .ok (event', { questionCount := questions.length,
                           totalSubjectQuestions := slot'.questionCount,
                           eventStatus := status' })

/-- The document the contribute handler saves on success, expressed as
a function of the pre-state, the request data, and the slot found at
the findIdx position; contribute returns exactly this event when all
its checks pass. -/
def contributeUpdate (e : Event) (teacherId : Nat) (teacherName teacherSubject : String)
    (qs : List QuestionInput) (slot : SubjectSlot) : Event :=
  let slot' := updatedSlot slot teacherId teacherName qs.length
    (qs.map (toQuestion teacherId teacherName))
  let subjects' := e.subjects.set
    (e.subjects.findIdx fun s => decide (s.subject = teacherSubject)) slot'
  { e with
    subjects := subjects',
    totalQuestions := totalOf subjects',
    status :=
      if allSubjectsComplete e.questionsPerSubject subjects'
          ∧ e.status = EventStatus.active then
        EventStatus.completed
      else e.status }

/-- The stored document after a contribute request: updated on success,
untouched on any error, because every error path of the handler returns
before event.save(). -/
def contributeStored (ev? : Option Event) (teacherId : Nat) (teacherName teacherSubject : String)
    (questions : List QuestionInput) : Option Event :=
  match contribute ev? teacherId teacherName teacherSubject questions with
  | .ok (e', _) => some e'
  | .error _ => ev?

/-- The filter of lines 1356-1358 collecting every slot under quota. -/
def incompleteSubjectsOf (e : Event) : List SubjectSlot :=
  e.subjects.filter fun s => decide (s.questionCount < e.questionsPerSubject)

/-- The publication gate as the source decides it at line 1360: publish
proceeds exactly when no slot is under quota. -/
def canPublish (e : Event) : Bool :=
  !(decide (0 < (incompleteSubjectsOf e).length))

/-- The intermediate assignment of lines 1366-1369: an event still
active is first marked completed before being published. -/
def publishCompletedStep (e : Event) : Event :=
  if e.status = EventStatus.active then { e with status := EventStatus.completed } else e

/-- The publish route handler (lines 1339-1380): 404 when the event is
missing, 400 listing every short slot as (subject, have, need) when the
gate fails, and otherwise the status walk active, completed, published
followed by the single save. -/
def publish (ev? : Option Event) : Except PublishError Event :=
  match ev? with
  | none => .error .eventNotFound
  | some event =>
    if 0 < (incompleteSubjectsOf event).length then
      .error (.incomplete ((incompleteSubjectsOf event).map
        fun s => (s.subject, s.questionCount, event.questionsPerSubject)))
    else
      .ok { publishCompletedStep event with status := EventStatus.published }

/-- The stored document after a publish request: updated on success,
untouched on any error. -/
def publishStored (ev? : Option Event) : Option Event :=
  match publish ev? with
  | .ok e' => some e'
  | .error _ => ev?

/-- The questions of the slot at a given position that are attributed to
a given teacher. -/
def attributedQuestions (e : Event) (subjectIndex : Nat) (teacherId : Nat) : List Question :=
  match e.subjects[subjectIndex]? with
  | none => []
  | some slot => slot.questions.filter fun q => decide (q.teacherId = some teacherId)

/-- Ledger lookup: the questionCount recorded for a teacher in the first
slot of the given subject, when both exist. -/
def ledgerEntry (e : Event) (teacherSubject : String) (teacherId : Nat) : Option Nat :=
  match e.subjects.find? fun s => decide (s.subject = teacherSubject) with
  | none => none
  | some slot =>
    match slot.teacherContributions.find? fun tc => decide (tc.teacherId = teacherId) with
    | none => none
    | some tc => some tc.questionCount

/-- The cached questionCount of the first slot of the given subject. -/
def slotCount (e : Event) (teacherSubject : String) : Option Nat :=
  (e.subjects.find? fun s => decide (s.subject = teacherSubject)).map
    fun s => s.questionCount

/-- The derived-cache invariant of the data model: every slot caches
the length of its own questions sequence, and the event caches the sum
of the per-slot counts. -/
def eventConsistent (e : Event) : Prop :=
  (∀ s ∈ e.subjects, s.questionCount = s.questions.length) ∧
    e.totalQuestions = (e.subjects.map fun s => s.questionCount).sum

instance (e : Event) : Decidable (eventConsistent e) := by
  unfold eventConsistent
  infer_instance

/-- A question input with the given text, options and answer index and
no images, used to exercise the handlers on concrete requests. -/
def sampleInput (t : String) (opts : List String) (c : Int) : QuestionInput :=
  { question := t, options := opts, correctAnswer := some c,
    imageUrls := [], imagePublicIds := [] }

/-- An empty subject slot exactly as event creation builds one
(lines 1281-1287 of the source). -/
def freshSlot (s : String) : SubjectSlot :=
  { subject := s, questions := [], questionCount := 0, teacherContributions := [] }

/-- A freshly created two-subject event with quota 2, matching the
scenario events of the spec. -/
def twoSubjectEvent : Event :=
  { questionsPerSubject := 2, status := EventStatus.active,
    subjects := [freshSlot "Mathematics", freshSlot "English"],
    totalQuestions := 0 }

/-- A freshly created one-subject event with quota 1: a single valid
contribution completes it. -/
def oneSubjectEvent : Event :=
  { questionsPerSubject := 1, status := EventStatus.active,
    subjects := [freshSlot "Mathematics"], totalQuestions := 0 }

/-- The publish failure scenario of the spec: Mathematics holds 1 of 2
questions and English holds 2 of 2. -/
def shortEvent : Event :=
  { questionsPerSubject := 2, status := EventStatus.active,
    subjects := [{ freshSlot "Mathematics" with questionCount := 1 },
                 { freshSlot "English" with questionCount := 2 }],
    totalQuestions := 3 }

/-- An event whose every slot already meets quota while still active. -/
def fullEvent : Event :=
  { questionsPerSubject := 2, status := EventStatus.active,
    subjects := [{ freshSlot "Mathematics" with questionCount := 2 },
                 { freshSlot "English" with questionCount := 2 }],
    totalQuestions := 4 }

/-- A completed one-subject event, used to exercise the frozen states. -/
def completedEvent : Event :=
  { oneSubjectEvent with status := EventStatus.completed }

/-- A valid two-question Mathematics batch. -/
def mathBatchTwo : List QuestionInput :=
  [sampleInput "q1" ["a", "b", "c", "d"] 0,
   sampleInput "q2" ["a", "b", "c", "d"] 1]

/-- The stored event after teacher 1 sends mathBatchTwo to
twoSubjectEvent: Mathematics full, English still empty. -/
def eventAfterMathTwo : Event :=
  contributeUpdate twoSubjectEvent 1 "Ada" "Mathematics" mathBatchTwo (freshSlot "Mathematics")

/-- The response of that contribution. -/
def resultAfterMathTwo : ContribResult :=
  { questionCount := 2, totalSubjectQuestions := 2, eventStatus := EventStatus.active }

/-- A first one-question batch, called batch A in the spec scenarios. -/
def batchA : List QuestionInput := [sampleInput "qa" ["a", "b", "c", "d"] 0]

/-- A second one-question batch, called batch B in the spec scenarios. -/
def batchB : List QuestionInput := [sampleInput "qb" ["a", "b", "c", "d"] 1]

/-- The stored event after teacher 1 sends batch A to oneSubjectEvent:
the single slot meets its quota of 1 and the event auto-completes. -/
def eventAfterA : Event :=
  contributeUpdate oneSubjectEvent 1 "Ada" "Mathematics" batchA (freshSlot "Mathematics")

/-- The response of that contribution. -/
def resultAfterA : ContribResult :=
  { questionCount := 1, totalSubjectQuestions := 1, eventStatus := EventStatus.completed }

/-- A valid input passes validateQuestion and yields exactly the
trimmed, attributed question. -/
theorem validateQuestion_ok_of_valid (tid : Nat) (tname : String) (q : QuestionInput)
    (h : isValidInput q = true) :
    validateQuestion tid tname q = .ok (toQuestion tid tname q) := by
  rcases q with ⟨qt, opts, ca, iu, ip⟩
  unfold isValidInput at h
  rcases ca with _ | c
  · simp at h
  · simp only [Bool.and_eq_true, decide_eq_true_eq] at h
    obtain ⟨⟨hq, hc0, hc3⟩, hlen⟩ := h
    simp [validateQuestion, toQuestion, hq, hlen]
    omega

/-- An invalid input makes validateQuestion fail. -/
theorem validateQuestion_error_of_invalid (tid : Nat) (tname : String) (q : QuestionInput)
    (h : isValidInput q = false) :
    ∃ msg, validateQuestion tid tname q = .error msg := by
  unfold validateQuestion
  split
  · exact ⟨_, rfl⟩
  · split
    · exact ⟨_, rfl⟩
    · split
      · exact ⟨_, rfl⟩
      · exfalso
        rename_i h1 h2 h3
        push_neg at h1 h2 h3
        rcases q with ⟨qt, opts, ca, iu, ip⟩
        rcases ca with _ | c
        · exact h1.2 rfl
        · simp only at h1 h2 h3
          simp [isValidInput, h1.1, h2] at h
          simp only [Option.getD_some] at h3
          omega

/-- A successful validateQuestion can only return the trimmed,
attributed question of a valid input. -/
theorem validateQuestion_ok_inv {tid : Nat} {tname : String} {q : QuestionInput} {q' : Question}
    (h : validateQuestion tid tname q = .ok q') :
    q' = toQuestion tid tname q ∧ isValidInput q = true := by
  by_cases hv : isValidInput q = true
  · rw [validateQuestion_ok_of_valid tid tname q hv] at h
    exact ⟨(Except.ok.inj h).symm, hv⟩
  · obtain ⟨msg, hmsg⟩ :=
      validateQuestion_error_of_invalid tid tname q (Bool.eq_false_iff.mpr hv)
    rw [hmsg] at h
    cases h

/-- A batch of valid inputs passes validateBatch and yields the mapped
stored questions in order. -/
theorem validateBatch_ok_of_valid (tid : Nat) (tname : String) (qs : List QuestionInput)
    (h : ∀ q ∈ qs, isValidInput q = true) :
    validateBatch tid tname qs = .ok (qs.map (toQuestion tid tname)) := by
  induction qs with
  | nil => rfl
  | cons q rest ih =>
    have hq := validateQuestion_ok_of_valid tid tname q (h q (by simp))
    have hrest := ih fun x hx => h x (by simp [hx])
    simp [validateBatch, hq, hrest]

/-- A batch containing an invalid input makes validateBatch fail. -/
theorem validateBatch_error_of_invalid (tid : Nat) (tname : String) (qs : List QuestionInput)
    (q : QuestionInput) (hmem : q ∈ qs) (h : isValidInput q = false) :
    ∃ msg, validateBatch tid tname qs = .error msg := by
  induction qs with
  | nil => cases hmem
  | cons x rest ih =>
    rcases List.mem_cons.mp hmem with hx | hx
    · subst hx
      obtain ⟨msg, hmsg⟩ := validateQuestion_error_of_invalid tid tname q h
      exact ⟨msg, by simp [validateBatch, hmsg]⟩
    · cases hvx : validateQuestion tid tname x with
      | error msg => exact ⟨msg, by simp [validateBatch, hvx]⟩
      | ok x' =>
        obtain ⟨msg, hmsg⟩ := ih hx
        exact ⟨msg, by simp [validateBatch, hvx, hmsg]⟩

/-- A successful validateBatch can only return the mapped stored
questions of an all-valid batch. -/
theorem validateBatch_ok_inv {tid : Nat} {tname : String} {qs : List QuestionInput}
    {l : List Question} (h : validateBatch tid tname qs = .ok l) :
    l = qs.map (toQuestion tid tname) ∧ ∀ q ∈ qs, isValidInput q = true := by
  induction qs generalizing l with
  | nil =>
    simp only [validateBatch] at h
    refine ⟨(Except.ok.inj h).symm, by simp⟩
  | cons x rest ih =>
    simp only [validateBatch] at h
    cases hvx : validateQuestion tid tname x with
    | error msg => rw [hvx] at h; cases h
    | ok x' =>
      rw [hvx] at h
      cases hvr : validateBatch tid tname rest with
      | error msg => rw [hvr] at h; cases h
      | ok rest' =>
        rw [hvr] at h
        obtain ⟨hx, hxv⟩ := validateQuestion_ok_inv hvx
        obtain ⟨hr, hrv⟩ := ih hvr
        cases h
        constructor
        · simp [hx, hr]
        · intro a ha
          rcases List.mem_cons.mp ha with ha | ha
          · exact ha ▸ hxv
          · exact hrv a ha

/-- When every check of the contribute handler passes, the call returns
exactly the contributeUpdate document together with the response record
of lines 1594-1599. -/
theorem contribute_eq_ok (e : Event) (tid : Nat) (tname tsubject : String)
    (qs : List QuestionInput) (slot : SubjectSlot)
    (hqs : qs ≠ [])
    (hact : e.status = EventStatus.active)
    (hslot : e.subjects[e.subjects.findIdx fun s => decide (s.subject = tsubject)]? = some slot)
    (hval : ∀ q ∈ qs, isValidInput q = true) :
    contribute (some e) tid tname tsubject qs =
      .ok (contributeUpdate e tid tname tsubject qs slot,
           { questionCount := qs.length,
             totalSubjectQuestions :=
               (updatedSlot slot tid tname qs.length
                 (qs.map (toQuestion tid tname))).questionCount,
             eventStatus := (contributeUpdate e tid tname tsubject qs slot).status }) := by
  have hlen : ¬ qs.length = 0 := by simpa [List.length_eq_zero] using hqs
  have hvb := validateBatch_ok_of_valid tid tname qs hval
  unfold contribute
  rw [if_neg hlen]
  simp only [hact, hslot, hvb, ne_eq, not_true_eq_false, if_false, ite_false]
  simp [contributeUpdate, hact]

/-- Inversion of a successful contribute call on an existing event:
every check passed and the returned document is the contributeUpdate of
the pre-state. -/
theorem contribute_ok_inv {e : Event} {tid : Nat} {tname tsubject : String}
    {qs : List QuestionInput} {e' : Event} {r : ContribResult}
    (h : contribute (some e) tid tname tsubject qs = .ok (e', r)) :
    ∃ slot,
      qs ≠ [] ∧ e.status = EventStatus.active ∧
      e.subjects[e.subjects.findIdx fun s => decide (s.subject = tsubject)]? = some slot ∧
      (∀ q ∈ qs, isValidInput q = true) ∧
      e' = contributeUpdate e tid tname tsubject qs slot ∧
      r = { questionCount := qs.length,
            totalSubjectQuestions :=
              (updatedSlot slot tid tname qs.length
                (qs.map (toQuestion tid tname))).questionCount,
            eventStatus := e'.status } := by
  by_cases hlen : qs.length = 0
  · unfold contribute at h
    rw [if_pos hlen] at h
    cases h
  · have hqs : qs ≠ [] := by simpa [List.length_eq_zero] using hlen
    by_cases hact : e.status = EventStatus.active
    · unfold contribute at h
      rw [if_neg hlen] at h
      simp only [hact, ne_eq, not_true_eq_false, if_false, ite_false] at h
      cases hslot : e.subjects[e.subjects.findIdx fun s => decide (s.subject = tsubject)]? with
      | none =>
        rw [hslot] at h
        cases h
      | some slot =>
        rw [hslot] at h
        cases hvb : validateBatch tid tname qs with
        | error msg =>
          rw [hvb] at h
          cases h
        | ok l =>
          rw [hvb] at h
          obtain ⟨hl, hvalid⟩ := validateBatch_ok_inv hvb
          subst hl
          simp only [Except.ok.injEq, Prod.mk.injEq] at h
          obtain ⟨he, hr⟩ := h
          refine ⟨slot, hqs, hact, rfl, hvalid, ?_, ?_⟩
          · rw [← he]
            simp [contributeUpdate, hact]
          · rw [← hr, ← he]
    · unfold contribute at h
      rw [if_neg hlen] at h
      simp only [ne_eq, ite_not] at h
      rw [if_neg hact] at h
      cases h

/-- An empty batch is rejected before the event is even loaded. -/
theorem contribute_empty_batch (ev? : Option Event) (tid : Nat) (tname tsubject : String) :
    contribute ev? tid tname tsubject [] = .error .noQuestions := rfl

/-- A missing event is reported as not found once the batch is
non-empty. -/
theorem contribute_event_missing (tid : Nat) (tname tsubject : String)
    (qs : List QuestionInput) (hqs : qs ≠ []) :
    contribute none tid tname tsubject qs = .error .eventNotFound := by
  have hlen : ¬ qs.length = 0 := by simpa [List.length_eq_zero] using hqs
  unfold contribute
  rw [if_neg hlen]

/-- An event whose status is not active rejects every non-empty batch
with the lifecycle error. -/
theorem contribute_not_active (e : Event) (tid : Nat) (tname tsubject : String)
    (qs : List QuestionInput) (hqs : qs ≠ [])
    (hst : e.status ≠ EventStatus.active) :
    contribute (some e) tid tname tsubject qs = .error .notActive := by
  have hlen : ¬ qs.length = 0 := by simpa [List.length_eq_zero] using hqs
  unfold contribute
  rw [if_neg hlen]
  simp only [ne_eq, ite_not]
  rw [if_neg hst]

/-- When no slot carries the teacher subject, the handler rejects the
call after the status check. -/
theorem contribute_subject_missing (e : Event) (tid : Nat) (tname tsubject : String)
    (qs : List QuestionInput) (hqs : qs ≠ [])
    (hact : e.status = EventStatus.active)
    (habs : ∀ s ∈ e.subjects, s.subject ≠ tsubject) :
    contribute (some e) tid tname tsubject qs = .error .subjectNotFound := by
  have hlen : ¬ qs.length = 0 := by simpa [List.length_eq_zero] using hqs
  have hidx : (e.subjects.findIdx fun s => decide (s.subject = tsubject)) = e.subjects.length :=
    List.findIdx_eq_length.mpr fun s hs => by simp [habs s hs]
  have hnone : e.subjects[e.subjects.findIdx fun s => decide (s.subject = tsubject)]? = none :=
    List.getElem?_eq_none (le_of_eq hidx.symm)
  unfold contribute
  rw [if_neg hlen]
  simp only [hact, ne_eq, not_true_eq_false, if_false, ite_false]
  rw [hnone]

/-- A batch containing an invalid input is rejected by the validation
map once the earlier checks pass. -/
theorem contribute_invalid_input (e : Event) (tid : Nat) (tname tsubject : String)
    (qs : List QuestionInput) (slot : SubjectSlot) (q : QuestionInput)
    (hqs : qs ≠ [])
    (hact : e.status = EventStatus.active)
    (hslot : e.subjects[e.subjects.findIdx fun s => decide (s.subject = tsubject)]? = some slot)
    (hmem : q ∈ qs) (hbad : isValidInput q = false) :
    ∃ msg, contribute (some e) tid tname tsubject qs = .error (.invalid msg) := by
  have hlen : ¬ qs.length = 0 := by simpa [List.length_eq_zero] using hqs
  obtain ⟨msg, hmsg⟩ := validateBatch_error_of_invalid tid tname qs q hmem hbad
  refine ⟨msg, ?_⟩
  unfold contribute
  rw [if_neg hlen]
  simp only [hact, ne_eq, not_true_eq_false, if_false, ite_false]
  rw [hslot, hmsg]

/-- A failed contribute request leaves the stored document untouched,
because no error path reaches the save call. -/
theorem contributeStored_of_error (ev? : Option Event) (tid : Nat) (tname tsubject : String)
    (qs : List QuestionInput)
    (h : (contribute ev? tid tname tsubject qs).isOk = false) :
    contributeStored ev? tid tname tsubject qs = ev? := by
  unfold contributeStored
  cases hc : contribute ev? tid tname tsubject qs with
  | ok p => rw [hc] at h; simp [Except.isOk, Except.toBool] at h
  | error err => rfl

/-- A successful contribute request stores the returned document. -/
theorem contributeStored_of_ok (ev? : Option Event) (tid : Nat) (tname tsubject : String)
    (qs : List QuestionInput) (e' : Event) (r : ContribResult)
    (h : contribute ev? tid tname tsubject qs = .ok (e', r)) :
    contributeStored ev? tid tname tsubject qs = some e' := by
  unfold contributeStored
  rw [h]

/-- The foldl of line 1573 computes the sum of the cached counts. -/
theorem foldl_count_eq (subjects : List SubjectSlot) (n : Nat) :
    subjects.foldl (fun total s => total + s.questionCount) n
      = n + (subjects.map fun s => s.questionCount).sum := by
  induction subjects generalizing n with
  | nil => simp
  | cons s rest ih =>
    simp only [List.foldl_cons, List.map_cons, List.sum_cons, ih]
    omega

/-- totalOf is the sum of the cached per-slot counts. -/
theorem totalOf_eq_sum (subjects : List SubjectSlot) :
    totalOf subjects = (subjects.map fun s => s.questionCount).sum := by
  simpa using foldl_count_eq subjects 0

/-- Replacing the first match of findIdx by an element that still
satisfies the predicate leaves findIdx unchanged. -/
theorem findIdx_set_self {α : Type} (p : α → Bool) (l : List α) (a : α)
    (hlt : l.findIdx p < l.length) (ha : p a = true) :
    (l.set (l.findIdx p) a).findIdx p = l.findIdx p := by
  induction l with
  | nil => simp at hlt
  | cons x xs ih =>
    by_cases hx : p x = true
    · simp [List.findIdx_cons, hx, ha]
    · have hx' : p x = false := Bool.eq_false_iff.mpr hx
      have h0 : List.findIdx p (x :: xs) = List.findIdx p xs + 1 := by
        simp [List.findIdx_cons, hx']
      rw [h0]
      have hlt' : List.findIdx p xs < xs.length := by
        rw [h0] at hlt
        simpa using hlt
      simp [List.set, List.findIdx_cons, hx', ih hlt']

/-- Replacing the first match of findIdx by an element that still
satisfies the predicate makes find? return that element. -/
theorem find?_set_self {α : Type} (p : α → Bool) (l : List α) (a : α)
    (hlt : l.findIdx p < l.length) (ha : p a = true) :
    (l.set (l.findIdx p) a).find? p = some a := by
  induction l with
  | nil => simp at hlt
  | cons x xs ih =>
    by_cases hx : p x = true
    · simp [List.findIdx_cons, hx, ha, List.find?]
    · have hx' : p x = false := Bool.eq_false_iff.mpr hx
      have h0 : List.findIdx p (x :: xs) = List.findIdx p xs + 1 := by
        simp [List.findIdx_cons, hx']
      rw [h0]
      have hlt' : List.findIdx p xs < xs.length := by
        rw [h0] at hlt
        simpa using hlt
      simp [List.set, List.find?, hx', ih hlt']

/-- When some slot is under quota, the publish handler fails listing
every short slot as (subject, have, need). -/
theorem publish_incomplete (e : Event)
    (hlt : 0 < (incompleteSubjectsOf e).length) :
    publish (some e) = .error (.incomplete ((incompleteSubjectsOf e).map
      fun s => (s.subject, s.questionCount, e.questionsPerSubject))) := by
  simp only [publish]
  rw [if_pos hlt]

/-- When no slot is under quota, the publish handler saves the event
with status published after the intermediate completed assignment. -/
theorem publish_complete (e : Event)
    (hc : ¬ 0 < (incompleteSubjectsOf e).length) :
    publish (some e) = .ok { publishCompletedStep e with status := EventStatus.published } := by
  simp only [publish]
  rw [if_neg hc]

/-- A failed publish request leaves the stored document untouched. -/
theorem publishStored_of_error (ev? : Option Event)
    (h : (publish ev?).isOk = false) : publishStored ev? = ev? := by
  unfold publishStored
  cases hc : publish ev? with
  | ok p => rw [hc] at h; simp [Except.isOk, Except.toBool] at h
  | error err => rfl

/-- A slot under quota makes the incomplete filter non-empty. -/
theorem incomplete_length_pos (e : Event) (s : SubjectSlot)
    (hmem : s ∈ e.subjects) (hlt : s.questionCount < e.questionsPerSubject) :
    0 < (incompleteSubjectsOf e).length := by
  have : s ∈ incompleteSubjectsOf e := List.mem_filter.mpr ⟨hmem, by simpa using hlt⟩
  exact List.length_pos.mpr (List.ne_nil_of_mem this)

/-- When every slot meets quota, the incomplete filter is empty. -/
theorem incomplete_nil_of_complete (e : Event)
    (h : ∀ s ∈ e.subjects, e.questionsPerSubject ≤ s.questionCount) :
    (incompleteSubjectsOf e).length = 0 := by
  simp only [List.length_eq_zero, incompleteSubjectsOf]
  exact List.filter_eq_nil_iff.mpr fun s hs => by simpa using h s hs

/-- The slot returned by the findIdx lookup carries the teacher subject
and sits at a position below the length. -/
theorem slot_subject_of_getElem {e : Event} {tsubject : String} {slot : SubjectSlot}
    (hslot : e.subjects[e.subjects.findIdx fun s => decide (s.subject = tsubject)]? = some slot) :
    slot.subject = tsubject
      ∧ (e.subjects.findIdx fun s => decide (s.subject = tsubject)) < e.subjects.length := by
  obtain ⟨hlt, hget⟩ := List.getElem?_eq_some_iff.mp hslot
  refine ⟨?_, hlt⟩
  have hp := @List.findIdx_getElem _ (fun s => decide (s.subject = tsubject)) e.subjects hlt
  rw [hget] at hp
  simpa using hp

/-- Overwriting the first ledger match keeps later matches reachable:
the rewritten entry is found with the new count. -/
theorem setFirst_find? (tid : Nat) (n : Nat) (l : List TeacherContribution)
    (h : (l.any fun tc => decide (tc.teacherId = tid)) = true) :
    ∃ tc, ((setFirstContribution tid n l).find? fun tc => decide (tc.teacherId = tid)) = some tc
      ∧ tc.questionCount = n := by
  induction l with
  | nil => simp at h
  | cons x rest ih =>
    by_cases hx : x.teacherId = tid
    · refine ⟨{ x with questionCount := n }, ?_, rfl⟩
      simp [setFirstContribution, hx, List.find?_cons]
    · have h' : (rest.any fun tc => decide (tc.teacherId = tid)) = true := by
        simpa [hx] using h
      obtain ⟨tc, h1, h2⟩ := ih h'
      refine ⟨tc, ?_, h2⟩
      simp [setFirstContribution, hx, List.find?_cons, h1]

/-- Rewriting the same ledger entry with the same count twice is the
same as doing it once. -/
theorem setFirst_idem (tid : Nat) (n : Nat) (l : List TeacherContribution) :
    setFirstContribution tid n (setFirstContribution tid n l)
      = setFirstContribution tid n l := by
  induction l with
  | nil => rfl
  | cons x rest ih =>
    by_cases hx : x.teacherId = tid
    · simp [setFirstContribution, hx]
    · simp [setFirstContribution, hx, ih]

/-- Rewriting the first match in a ledger whose only match is a final
entry already carrying the target count changes nothing. -/
theorem setFirst_append_new (tid : Nat) (tname : String) (n : Nat)
    (l : List TeacherContribution)
    (h : ∀ x ∈ l, x.teacherId ≠ tid) :
    setFirstContribution tid n (l ++ [{ teacherId := tid, teacherName := tname, questionCount := n }])
      = l ++ [{ teacherId := tid, teacherName := tname, questionCount := n }] := by
  induction l with
  | nil => simp [setFirstContribution]
  | cons x rest ih =>
    have hx := h x (by simp)
    have ih' := ih fun y hy => h y (by simp [hy])
    simp only [List.cons_append, setFirstContribution, if_neg hx, List.append_eq]
    rw [ih']

/-- After an upsert the ledger always contains a match for the
teacher. -/
theorem upsert_any (tid : Nat) (tname : String) (n : Nat) (l : List TeacherContribution) :
    ((upsertContribution tid tname n l).any fun tc => decide (tc.teacherId = tid)) = true := by
  unfold upsertContribution
  by_cases hany : (l.any fun tc => decide (tc.teacherId = tid)) = true
  · rw [if_pos hany]
    induction l with
    | nil => simp at hany
    | cons x rest ih =>
      by_cases hx : x.teacherId = tid
      · simp [setFirstContribution, hx]
      · have h' : (rest.any fun tc => decide (tc.teacherId = tid)) = true := by
          simpa [hx] using hany
        simp [setFirstContribution, hx, ih h']
  · rw [if_neg hany]
    simp

/-- The ledger entry found for the teacher after an upsert carries
exactly the upserted count. -/
theorem upsert_find? (tid : Nat) (tname : String) (n : Nat) (l : List TeacherContribution) :
    ∃ tc, ((upsertContribution tid tname n l).find? fun tc => decide (tc.teacherId = tid)) = some tc
      ∧ tc.questionCount = n := by
  unfold upsertContribution
  by_cases hany : (l.any fun tc => decide (tc.teacherId = tid)) = true
  · rw [if_pos hany]
    exact setFirst_find? tid n l hany
  · rw [if_neg hany]
    have hnone : (l.find? fun tc => decide (tc.teacherId = tid)) = none := by
      rw [List.find?_eq_none]
      intro x hx
      simp only [List.any_eq_true, not_exists, not_and] at hany
      simp [hany x hx]
    refine ⟨{ teacherId := tid, teacherName := tname, questionCount := n }, ?_, rfl⟩
    rw [List.find?_append, hnone]
    simp [List.find?_cons]

/-- Upserting the same count twice is the same as upserting it once. -/
theorem upsert_idem (tid : Nat) (tname : String) (n : Nat) (l : List TeacherContribution) :
    upsertContribution tid tname n (upsertContribution tid tname n l)
      = upsertContribution tid tname n l := by
  have hany2 := upsert_any tid tname n l
  have houter : ∀ L, (L.any fun tc => decide (tc.teacherId = tid)) = true →
      setFirstContribution tid n L = L → upsertContribution tid tname n L = L := by
    intro L h1 h2
    unfold upsertContribution
    rw [if_pos h1]
    exact h2
  apply houter _ hany2
  unfold upsertContribution
  by_cases hany : (l.any fun tc => decide (tc.teacherId = tid)) = true
  · rw [if_pos hany]
    exact setFirst_idem tid n l
  · rw [if_neg hany]
    apply setFirst_append_new
    intro x hx
    simp only [List.any_eq_true, not_exists, not_and] at hany
    have := hany x hx
    simpa using this

/-- Every question built from the batch is attributed to the
contributing teacher. -/
theorem toQuestion_teacherId (tid : Nat) (tname : String) (q : QuestionInput) :
    (toQuestion tid tname q).teacherId = some tid := rfl

/-- The teacher-attributed questions of the updated slot are exactly
the stored forms of the batch, in order. -/
theorem updatedSlot_attributed (slot : SubjectSlot) (tid : Nat) (tname : String)
    (n : Nat) (qs : List QuestionInput) :
    ((updatedSlot slot tid tname n (qs.map (toQuestion tid tname))).questions.filter
        fun q => decide (q.teacherId = some tid))
      = qs.map (toQuestion tid tname) := by
  have h1 : ((slot.questions.filter fun q => decide (q.teacherId ≠ some tid)).filter
      fun q => decide (q.teacherId = some tid)) = [] := by
    rw [List.filter_filter]
    apply List.filter_eq_nil_iff.mpr
    intro a _
    by_cases h : a.teacherId = some tid <;> simp [h]
  have h2 : (((qs.map (toQuestion tid tname)).filter
      fun q => decide (q.teacherId = some tid)))
      = qs.map (toQuestion tid tname) := by
    apply List.filter_eq_self.mpr
    intro a ha
    obtain ⟨q, _, rfl⟩ := List.mem_map.mp ha
    simp [toQuestion]
  simp only [updatedSlot, List.filter_append, h1, h2, List.nil_append]

/-- Filtering out the teacher from a slot that was just rebuilt for
that teacher returns exactly the part kept from before. -/
theorem keep_append_filter (l new : List Question) (tid : Nat)
    (hnew : ∀ q ∈ new, q.teacherId = some tid) :
    (((l.filter fun q => decide (q.teacherId ≠ some tid)) ++ new).filter
        fun q => decide (q.teacherId ≠ some tid))
      = l.filter fun q => decide (q.teacherId ≠ some tid) := by
  rw [List.filter_append]
  have h1 : ((l.filter fun q => decide (q.teacherId ≠ some tid)).filter
      fun q => decide (q.teacherId ≠ some tid))
      = l.filter fun q => decide (q.teacherId ≠ some tid) :=
    List.filter_eq_self.mpr fun a ha => (List.mem_filter.mp ha).2
  have h2 : (new.filter fun q => decide (q.teacherId ≠ some tid)) = [] :=
    List.filter_eq_nil_iff.mpr fun a ha => by simp [hnew a ha]
  rw [h1, h2, List.append_nil]

/-- Rebuilding a slot twice from the same batch is the same as
rebuilding it once. -/
theorem updatedSlot_idem (slot : SubjectSlot) (tid : Nat) (tname : String) (n : Nat)
    (qs : List QuestionInput) :
    updatedSlot (updatedSlot slot tid tname n (qs.map (toQuestion tid tname)))
        tid tname n (qs.map (toQuestion tid tname))
      = updatedSlot slot tid tname n (qs.map (toQuestion tid tname)) := by
  have hnew : ∀ q ∈ qs.map (toQuestion tid tname), q.teacherId = some tid := by
    intro a ha
    obtain ⟨q, _, rfl⟩ := List.mem_map.mp ha
    rfl
  simp only [updatedSlot]
  rw [keep_append_filter slot.questions (qs.map (toQuestion tid tname)) tid hnew,
    upsert_idem]

/-- The subjects stored by a successful contribute call: the found slot
is replaced in place. -/
theorem contributeUpdate_subjects (e : Event) (tid : Nat) (tname tsubject : String)
    (qs : List QuestionInput) (slot : SubjectSlot) :
    (contributeUpdate e tid tname tsubject qs slot).subjects
      = e.subjects.set (e.subjects.findIdx fun s => decide (s.subject = tsubject))
          (updatedSlot slot tid tname qs.length (qs.map (toQuestion tid tname))) := rfl

/-- The total stored by a successful contribute call is recomputed from
the updated subjects. -/
theorem contributeUpdate_total (e : Event) (tid : Nat) (tname tsubject : String)
    (qs : List QuestionInput) (slot : SubjectSlot) :
    (contributeUpdate e tid tname tsubject qs slot).totalQuestions
      = totalOf (contributeUpdate e tid tname tsubject qs slot).subjects := rfl

/-- A contribute call never changes the quota. -/
theorem contributeUpdate_quota (e : Event) (tid : Nat) (tname tsubject : String)
    (qs : List QuestionInput) (slot : SubjectSlot) :
    (contributeUpdate e tid tname tsubject qs slot).questionsPerSubject
      = e.questionsPerSubject := rfl

/-- The status stored by a contribute call on an active event is
decided by the completeness test over the updated subjects. -/
theorem contributeUpdate_status (e : Event) (tid : Nat) (tname tsubject : String)
    (qs : List QuestionInput) (slot : SubjectSlot)
    (hact : e.status = EventStatus.active) :
    (contributeUpdate e tid tname tsubject qs slot).status
      = if allSubjectsComplete e.questionsPerSubject
            (contributeUpdate e tid tname tsubject qs slot).subjects = true then
          EventStatus.completed
        else EventStatus.active := by
  simp [contributeUpdate, hact]

/-- The teacher subject still resolves to the same position after the
slot replacement. -/
theorem contributeUpdate_findIdx {e : Event} {tsubject : String} {slot : SubjectSlot}
    (tid : Nat) (tname : String) (qs : List QuestionInput)
    (hslot : e.subjects[e.subjects.findIdx fun s => decide (s.subject = tsubject)]? = some slot) :
    ((contributeUpdate e tid tname tsubject qs slot).subjects.findIdx
        fun s => decide (s.subject = tsubject))
      = e.subjects.findIdx fun s => decide (s.subject = tsubject) := by
  obtain ⟨hsub, hlt⟩ := slot_subject_of_getElem hslot
  have hpa : (fun s => decide (s.subject = tsubject))
      (updatedSlot slot tid tname qs.length (qs.map (toQuestion tid tname))) = true := by
    simp [updatedSlot, hsub]
  simpa [contributeUpdate_subjects] using
    findIdx_set_self (fun s => decide (s.subject = tsubject)) e.subjects _ hlt hpa

/-- Looking the teacher subject up in the stored document returns the
freshly rebuilt slot. -/
theorem contributeUpdate_getElem {e : Event} {tsubject : String} {slot : SubjectSlot}
    (tid : Nat) (tname : String) (qs : List QuestionInput)
    (hslot : e.subjects[e.subjects.findIdx fun s => decide (s.subject = tsubject)]? = some slot) :
    (contributeUpdate e tid tname tsubject qs slot).subjects[
        (contributeUpdate e tid tname tsubject qs slot).subjects.findIdx
          fun s => decide (s.subject = tsubject)]?
      = some (updatedSlot slot tid tname qs.length (qs.map (toQuestion tid tname))) := by
  obtain ⟨hsub, hlt⟩ := slot_subject_of_getElem hslot
  rw [contributeUpdate_findIdx tid tname qs hslot, contributeUpdate_subjects]
  exact List.getElem?_set_self hlt

/-- Inversion of a successful publish call: the gate passed and the
stored document is the pre-state advanced to published. -/
theorem publish_ok_inv {e e' : Event} (h : publish (some e) = .ok e') :
    e' = { publishCompletedStep e with status := EventStatus.published }
      ∧ (incompleteSubjectsOf e).length = 0 := by
  by_cases hlt : 0 < (incompleteSubjectsOf e).length
  · rw [publish_incomplete e hlt] at h
    cases h
  · rw [publish_complete e hlt] at h
    exact ⟨(Except.ok.inj h).symm, by omega⟩

/-- The publish handler never touches the subjects. -/
theorem publishCompletedStep_subjects (e : Event) :
    (publishCompletedStep e).subjects = e.subjects := by
  unfold publishCompletedStep
  split <;> rfl

/-- The publish handler never touches the cached total. -/
theorem publishCompletedStep_total (e : Event) :
    (publishCompletedStep e).totalQuestions = e.totalQuestions := by
  unfold publishCompletedStep
  split <;> rfl

/-- C2: automatic completion inside the contribution call: for every
event in status active, when a successful contribute call leaves every
subject slot with questionCount at least questionsPerSubject, that same
call stores status completed; when some slot remains below quota the
status stays active. -/
theorem contribute_auto_completion (e e' : Event) (r : ContribResult) (tid : Nat)
    (tname tsubject : String) (qs : List QuestionInput)
    (hact : e.status = EventStatus.active)
    (h : contribute (some e) tid tname tsubject qs = .ok (e', r)) :
    (allSubjectsComplete e'.questionsPerSubject e'.subjects = true →
        e'.status = EventStatus.completed) ∧
      (allSubjectsComplete e'.questionsPerSubject e'.subjects = false →
        e'.status = EventStatus.active) := by
  obtain ⟨slot, hqs, hact', hslot, hval, he, hr⟩ := contribute_ok_inv h
  subst he
  rw [contributeUpdate_quota]
  rw [contributeUpdate_status e tid tname tsubject qs slot hact]
  constructor
  · intro hc
    rw [if_pos hc]
  · intro hc
    rw [if_neg (by simp [hc])]

/-- C2 witness: two valid Mathematics questions on the fresh two
subject event leave English short, so the status stays active. -/
theorem contribute_auto_completion_witness :
    allSubjectsComplete eventAfterMathTwo.questionsPerSubject eventAfterMathTwo.subjects
        = false ∧
      eventAfterMathTwo.status = EventStatus.active :=
  ⟨by decide,
   (contribute_auto_completion twoSubjectEvent eventAfterMathTwo resultAfterMathTwo 1 "Ada"
      "Mathematics" mathBatchTwo rfl (by decide)).2 (by decide)⟩

/-- C3: derived-cache invariant: when the stored event satisfies the
invariant, after every successful contribute or publish call the stored
totalQuestions equals the sum of the per-slot questionCounts and every
slot questionCount equals the length of its questions sequence. -/
theorem derived_cache_invariant (e : Event) (hwf : eventConsistent e) :
    (∀ tid tname tsubject qs e' r,
        contribute (some e) tid tname tsubject qs = .ok (e', r) → eventConsistent e') ∧
      (∀ e', publish (some e) = .ok e' → eventConsistent e') := by
  constructor
  · intro tid tname tsubject qs e' r h
    obtain ⟨slot, hqs, hact, hslot, hval, he, hr⟩ := contribute_ok_inv h
    subst he
    constructor
    · intro s hs
      rw [contributeUpdate_subjects] at hs
      rcases List.mem_or_eq_of_mem_set hs with hmem | heq
      · exact hwf.1 s hmem
      · subst heq
        rfl
    · rw [contributeUpdate_total, totalOf_eq_sum]
  · intro e' h
    obtain ⟨he, _⟩ := publish_ok_inv h
    subst he
    constructor
    · intro s hs
      have hmem : s ∈ e.subjects := by
        simpa [publishCompletedStep_subjects] using hs
      exact hwf.1 s hmem
    · show (publishCompletedStep e).totalQuestions
        = (((publishCompletedStep e).subjects).map fun s => s.questionCount).sum
      rw [publishCompletedStep_total, publishCompletedStep_subjects]
      exact hwf.2

/-- C3 witness: the invariant holds of the fresh event and of the
stored event after a concrete successful contribution. -/
theorem derived_cache_invariant_witness : eventConsistent eventAfterMathTwo :=
  (derived_cache_invariant twoSubjectEvent (by decide)).1 1 "Ada" "Mathematics"
    mathBatchTwo eventAfterMathTwo resultAfterMathTwo (by decide)

/-- C4: atomicity of contribute: a failed call (empty batch, missing
event, inactive event, missing subject slot, or any invalid question)
leaves the stored event unchanged, and each listed condition does make
the call fail; either the full replacement lands or none of it does. -/
theorem contribute_atomic (ev? : Option Event) (tid : Nat) (tname tsubject : String)
    (qs : List QuestionInput) :
    ((contribute ev? tid tname tsubject qs).isOk = false →
        contributeStored ev? tid tname tsubject qs = ev?) ∧
      (qs = [] → contribute ev? tid tname tsubject qs = .error .noQuestions) ∧
      (ev? = none → qs ≠ [] → contribute ev? tid tname tsubject qs = .error .eventNotFound) ∧
      (∀ e, ev? = some e → qs ≠ [] → e.status ≠ EventStatus.active →
        contribute ev? tid tname tsubject qs = .error .notActive) ∧
      (∀ e, ev? = some e → qs ≠ [] → e.status = EventStatus.active →
        (∀ s ∈ e.subjects, s.subject ≠ tsubject) →
        contribute ev? tid tname tsubject qs = .error .subjectNotFound) ∧
      (∀ e slot q, ev? = some e → qs ≠ [] → e.status = EventStatus.active →
        e.subjects[e.subjects.findIdx fun s => decide (s.subject = tsubject)]? = some slot →
        q ∈ qs → isValidInput q = false →
        ∃ msg, contribute ev? tid tname tsubject qs = .error (.invalid msg)) := by
  refine ⟨contributeStored_of_error ev? tid tname tsubject qs, ?_, ?_, ?_, ?_, ?_⟩
  · rintro rfl
    exact contribute_empty_batch ev? tid tname tsubject
  · rintro rfl h
    exact contribute_event_missing tid tname tsubject qs h
  · rintro e rfl hqs hst
    exact contribute_not_active e tid tname tsubject qs hqs hst
  · rintro e rfl hqs hact habs
    exact contribute_subject_missing e tid tname tsubject qs hqs hact habs
  · rintro e slot q rfl hqs hact hslot hmem hbad
    exact contribute_invalid_input e tid tname tsubject qs slot q hqs hact hslot hmem hbad

/-- C4 witness: an empty batch is rejected with the no-questions error,
and a batch with an empty question text leaves the stored event
untouched. -/
theorem contribute_atomic_witness :
    contribute (some twoSubjectEvent) 1 "Ada" "Mathematics" [] = .error .noQuestions ∧
      contributeStored (some twoSubjectEvent) 1 "Ada" "Mathematics"
          [sampleInput "" ["a", "b", "c", "d"] 0] = some twoSubjectEvent :=
  ⟨(contribute_atomic (some twoSubjectEvent) 1 "Ada" "Mathematics" []).2.1 rfl,
   (contribute_atomic (some twoSubjectEvent) 1 "Ada" "Mathematics"
       [sampleInput "" ["a", "b", "c", "d"] 0]).1 (by decide)⟩

/-- C5: publication gate failure: whenever some subject slot is below
quota, canPublish is false and the publish call fails enumerating every
short slot as a (subject, have, need) triple, leaving the stored event,
hence its status, unchanged. -/
theorem publish_gate_failure (e : Event) (s : SubjectSlot)
    (hmem : s ∈ e.subjects) (hshort : s.questionCount < e.questionsPerSubject) :
    canPublish e = false ∧
      publish (some e) = .error (.incomplete ((incompleteSubjectsOf e).map
        fun t => (t.subject, t.questionCount, e.questionsPerSubject))) ∧
      publishStored (some e) = some e := by
  have hpos := incomplete_length_pos e s hmem hshort
  refine ⟨?_, publish_incomplete e hpos, ?_⟩
  · simp [canPublish, hpos]
  · apply publishStored_of_error
    rw [publish_incomplete e hpos]
    rfl

/-- C5 witness: the spec scenario Mathematics 1 of 2, English 2 of 2
fails listing exactly the Mathematics triple and stores nothing. -/
theorem publish_gate_failure_witness :
    canPublish shortEvent = false ∧
      publish (some shortEvent) = .error (.incomplete [("Mathematics", 1, 2)]) ∧
      publishStored (some shortEvent) = some shortEvent := by
  have h := publish_gate_failure shortEvent
    { freshSlot "Mathematics" with questionCount := 1 } (by decide) (by decide)
  refine ⟨h.1, ?_, h.2.2⟩
  rw [h.2.1]
  rfl

/-- C6 counterexample: a batch whose single question carries an empty
option text is accepted by the handler and changes the stored event,
against the claim that such a call fails with the event unchanged. -/
theorem per_question_validation_counterexample :
    (contribute (some twoSubjectEvent) 1 "Ada" "Mathematics"
        [sampleInput "q1" ["a", "b", "", "d"] 0]).isOk = true ∧
      contributeStored (some twoSubjectEvent) 1 "Ada" "Mathematics"
          [sampleInput "q1" ["a", "b", "", "d"] 0] ≠ some twoSubjectEvent := by
  decide

/-- C6 amended: a batch containing a question with empty question text,
or an option count different from 4, or a missing answer index, or one
outside 0 to 3, always makes the call fail and leaves the stored event
unchanged; the failure message does not name the item position, and an
empty (after trimming) option text is not rejected. -/
theorem per_question_validation_amended (e : Event) (tid : Nat) (tname tsubject : String)
    (qs : List QuestionInput) (q : QuestionInput) (hmem : q ∈ qs)
    (hbad : q.question = "" ∨ q.options.length ≠ 4 ∨ q.correctAnswer = none
      ∨ ∃ c, q.correctAnswer = some c ∧ (c < 0 ∨ 3 < c)) :
    (contribute (some e) tid tname tsubject qs).isOk = false ∧
      contributeStored (some e) tid tname tsubject qs = some e := by
  have hinv : isValidInput q = false := by
    apply Bool.eq_false_iff.mpr
    intro hv
    unfold isValidInput at hv
    rcases q with ⟨qt, opts, ca, iu, ip⟩
    rcases ca with _ | c
    · simp at hv
    · simp only [Bool.and_eq_true, decide_eq_true_eq] at hv
      obtain ⟨⟨hq, hc0, hc3⟩, hlen⟩ := hv
      rcases hbad with h | h | h | ⟨c2, hc2, hrange⟩
      · exact hq h
      · exact h hlen
      · cases h
      · obtain rfl : c2 = c := (Option.some.inj hc2).symm
        omega
  have hfail : ¬ (contribute (some e) tid tname tsubject qs).isOk = true := by
    intro hok
    cases hc : contribute (some e) tid tname tsubject qs with
    | error err =>
      rw [hc] at hok
      simp [Except.isOk, Except.toBool] at hok
    | ok p =>
      obtain ⟨e', r⟩ := p
      obtain ⟨slot, _, _, _, hval, _, _⟩ := contribute_ok_inv hc
      rw [hval q hmem] at hinv
      cases hinv
  have hfalse : (contribute (some e) tid tname tsubject qs).isOk = false :=
    Bool.eq_false_iff.mpr hfail
  exact ⟨hfalse, contributeStored_of_error _ _ _ _ _ hfalse⟩

/-- C6 witness for the amended claim: the spec scenario of a question
with only 3 options fails and leaves the event untouched. -/
theorem per_question_validation_witness :
    (contribute (some twoSubjectEvent) 1 "Ada" "Mathematics"
        [sampleInput "q" ["a", "b", "c"] 0]).isOk = false ∧
      contributeStored (some twoSubjectEvent) 1 "Ada" "Mathematics"
          [sampleInput "q" ["a", "b", "c"] 0] = some twoSubjectEvent :=
  per_question_validation_amended twoSubjectEvent 1 "Ada" "Mathematics"
    [sampleInput "q" ["a", "b", "c"] 0] (sampleInput "q" ["a", "b", "c"] 0)
    (by decide) (Or.inr (Or.inl (by decide)))

/-- C7: active-only contribution: an event in status completed or
published rejects every contribute call, leaves the stored event
unchanged, and reports the lifecycle error on every non-empty batch. -/
theorem contribute_frozen (e : Event) (tid : Nat) (tname tsubject : String)
    (qs : List QuestionInput)
    (hst : e.status = EventStatus.completed ∨ e.status = EventStatus.published) :
    (contribute (some e) tid tname tsubject qs).isOk = false ∧
      contributeStored (some e) tid tname tsubject qs = some e ∧
      (qs ≠ [] → contribute (some e) tid tname tsubject qs = .error .notActive) := by
  have hne : e.status ≠ EventStatus.active := by
    rcases hst with h | h <;> rw [h] <;> intro hc <;> cases hc
  by_cases hqs : qs = []
  · subst hqs
    refine ⟨?_, ?_, fun h => absurd rfl h⟩
    · rw [contribute_empty_batch]
      rfl
    · apply contributeStored_of_error
      rw [contribute_empty_batch]
      rfl
  · have h := contribute_not_active e tid tname tsubject qs hqs hne
    refine ⟨?_, ?_, fun _ => h⟩
    · rw [h]
      rfl
    · apply contributeStored_of_error
      rw [h]
      rfl

/-- C7 witness: the completed one-subject event rejects a valid revision
with the lifecycle error and stays unchanged. -/
theorem contribute_frozen_witness :
    (contribute (some completedEvent) 1 "Ada" "Mathematics" batchB).isOk = false ∧
      contributeStored (some completedEvent) 1 "Ada" "Mathematics" batchB
          = some completedEvent ∧
      contribute (some completedEvent) 1 "Ada" "Mathematics" batchB = .error .notActive := by
  have h := contribute_frozen completedEvent 1 "Ada" "Mathematics" batchB (Or.inl rfl)
  exact ⟨h.1, h.2.1, h.2.2 (by decide)⟩

/-- C9: publish success and the active shortcut: when every slot meets
quota the publish call succeeds and stores status published, passing
through the intermediate completed assignment when the status was still
active; the stored published event rejects every further contribution
and republishing keeps it published. -/
theorem publish_success (e : Event) (hcan : canPublish e = true) :
    publish (some e)
        = .ok { publishCompletedStep e with status := EventStatus.published } ∧
      ({ publishCompletedStep e with status := EventStatus.published } : Event).status
          = EventStatus.published ∧
      (e.status = EventStatus.active →
        (publishCompletedStep e).status = EventStatus.completed) ∧
      (∀ tid tname tsubject qs,
        (contribute
            (some ({ publishCompletedStep e with status := EventStatus.published } : Event))
            tid tname tsubject qs).isOk = false) ∧
      (∀ e'',
        publish (some ({ publishCompletedStep e with status := EventStatus.published } : Event))
            = .ok e'' →
        e''.status = EventStatus.published) := by
  have hlen : ¬ 0 < (incompleteSubjectsOf e).length := by
    intro hpos
    unfold canPublish at hcan
    rw [decide_eq_true hpos] at hcan
    simp at hcan
  refine ⟨publish_complete e hlen, rfl, ?_, ?_, ?_⟩
  · intro hact
    simp [publishCompletedStep, hact]
  · intro tid tname tsubject qs
    by_cases hqs : qs = []
    · subst hqs
      rw [contribute_empty_batch]
      rfl
    · rw [contribute_not_active _ _ _ _ _ hqs (by intro hc; cases hc)]
      rfl
  · intro e'' h
    obtain ⟨he, _⟩ := publish_ok_inv h
    subst he
    rfl

/-- C9 witness: the complete-but-active event publishes in one call,
with the intermediate step showing completed. -/
theorem publish_success_witness :
    publish (some fullEvent)
        = .ok { publishCompletedStep fullEvent with status := EventStatus.published } ∧
      (publishCompletedStep fullEvent).status = EventStatus.completed :=
  ⟨(publish_success fullEvent (by decide)).1,
   (publish_success fullEvent (by decide)).2.2.1 rfl⟩

/-- C10: no server-side upper bound on batch size: a valid batch longer
than the quota still succeeds, the slot count then exceeds the quota,
and the completeness test, which uses greater-or-equal, still decides
the transition to completed. -/
theorem contribute_no_upper_bound (e : Event) (tid : Nat) (tname tsubject : String)
    (qs : List QuestionInput) (slot : SubjectSlot)
    (hqs : qs ≠ [])
    (hact : e.status = EventStatus.active)
    (hslot : e.subjects[e.subjects.findIdx fun s => decide (s.subject = tsubject)]? = some slot)
    (hval : ∀ q ∈ qs, isValidInput q = true)
    (hbig : e.questionsPerSubject < qs.length) :
    ∃ e' r, contribute (some e) tid tname tsubject qs = .ok (e', r) ∧
      e'.subjects[e'.subjects.findIdx fun s => decide (s.subject = tsubject)]?
          = some (updatedSlot slot tid tname qs.length (qs.map (toQuestion tid tname))) ∧
      e'.questionsPerSubject
          < (updatedSlot slot tid tname qs.length (qs.map (toQuestion tid tname))).questionCount ∧
      (e'.status = EventStatus.completed ↔
        allSubjectsComplete e'.questionsPerSubject e'.subjects = true) := by
  refine ⟨contributeUpdate e tid tname tsubject qs slot,
    { questionCount := qs.length,
      totalSubjectQuestions :=
        (updatedSlot slot tid tname qs.length (qs.map (toQuestion tid tname))).questionCount,
      eventStatus := (contributeUpdate e tid tname tsubject qs slot).status },
    contribute_eq_ok e tid tname tsubject qs slot hqs hact hslot hval,
    contributeUpdate_getElem tid tname qs hslot, ?_, ?_⟩
  · rw [contributeUpdate_quota]
    have hcount : (updatedSlot slot tid tname qs.length
        (qs.map (toQuestion tid tname))).questionCount
        = (slot.questions.filter fun q => decide (q.teacherId ≠ some tid)).length
          + qs.length := by
      simp [updatedSlot]
    omega
  · rw [contributeUpdate_quota,
      contributeUpdate_status e tid tname tsubject qs slot hact]
    cases hb : allSubjectsComplete e.questionsPerSubject
        (contributeUpdate e tid tname tsubject qs slot).subjects with
    | true => simp
    | false => simp

/-- C10 witness: two valid questions sent against a quota of one are
accepted, the slot ends above quota and the event completes. -/
theorem contribute_no_upper_bound_witness :
    ∃ e' r, contribute (some oneSubjectEvent) 1 "Ada" "Mathematics" mathBatchTwo = .ok (e', r) ∧
      e'.subjects[e'.subjects.findIdx fun s => decide (s.subject = "Mathematics")]?
          = some (updatedSlot (freshSlot "Mathematics") 1 "Ada" mathBatchTwo.length
              (mathBatchTwo.map (toQuestion 1 "Ada"))) ∧
      e'.questionsPerSubject
          < (updatedSlot (freshSlot "Mathematics") 1 "Ada" mathBatchTwo.length
              (mathBatchTwo.map (toQuestion 1 "Ada"))).questionCount ∧
      (e'.status = EventStatus.completed ↔
        allSubjectsComplete e'.questionsPerSubject e'.subjects = true) :=
  contribute_no_upper_bound oneSubjectEvent 1 "Ada" "Mathematics" mathBatchTwo
    (freshSlot "Mathematics") (by decide) rfl (by decide) (by decide) (by decide)

/-- C1 counterexample: with quota 1, the first contribution completes
the event, the second call by the same teacher is rejected, and after
the second call batch A rather than batch B remains attributed to the
teacher, so two successive calls on an active event need not end with
the second batch. -/
theorem full_replace_counterexample :
    oneSubjectEvent.status = EventStatus.active ∧
      contribute (some oneSubjectEvent) 1 "Ada" "Mathematics" batchA
          = .ok (eventAfterA, resultAfterA) ∧
      contribute (some eventAfterA) 1 "Ada" "Mathematics" batchB = .error .notActive ∧
      contributeStored (some eventAfterA) 1 "Ada" "Mathematics" batchB = some eventAfterA ∧
      attributedQuestions eventAfterA 0 1 = batchA.map (toQuestion 1 "Ada") ∧
      attributedQuestions eventAfterA 0 1 ≠ batchB.map (toQuestion 1 "Ada") := by
  decide

/-- C1 amended: full-replace semantics of contribute: when the first
call leaves the event still active, the second call by the same teacher
succeeds and exactly the second batch is attributed to that teacher in
the slot — none of the first batch survives; a resubmission is a
replacement, not a merge.  When instead the first call completes the
event, the second call is rejected, as the counterexample shows. -/
theorem full_replace_amended (e : Event) (tid : Nat) (tname tsubject : String)
    (qsA qsB : List QuestionInput) (e1 : Event) (r1 : ContribResult)
    (hact : e.status = EventStatus.active)
    (h1 : contribute (some e) tid tname tsubject qsA = .ok (e1, r1))
    (hstill : e1.status = EventStatus.active)
    (hB : qsB ≠ []) (hvalB : ∀ q ∈ qsB, isValidInput q = true) :
    ∃ e2 r2, contribute (some e1) tid tname tsubject qsB = .ok (e2, r2) ∧
      attributedQuestions e2 (e.subjects.findIdx fun s => decide (s.subject = tsubject)) tid
        = qsB.map (toQuestion tid tname) := by
  obtain ⟨slot, hqsA, hact', hslot, hvalA, he1, hr1⟩ := contribute_ok_inv h1
  subst he1
  have hslot1 := contributeUpdate_getElem tid tname qsA hslot
  have h2 := contribute_eq_ok (contributeUpdate e tid tname tsubject qsA slot) tid tname
    tsubject qsB (updatedSlot slot tid tname qsA.length (qsA.map (toQuestion tid tname)))
    hB hstill hslot1 hvalB
  refine ⟨_, _, h2, ?_⟩
  have hi1 := contributeUpdate_findIdx tid tname qsA hslot
  have hi2 := contributeUpdate_findIdx tid tname qsB hslot1
  have hget2 := contributeUpdate_getElem tid tname qsB hslot1
  rw [hi2, hi1] at hget2
  unfold attributedQuestions
  simp only [hget2]
  exact updatedSlot_attributed _ tid tname qsB.length qsB

/-- C1 witness for the amended claim: after filling Mathematics on the
two-subject event, English is still short, the event stays active, and
a resubmission replaces both earlier questions by the single new one. -/
theorem full_replace_witness :
    ∃ e2 r2, contribute (some eventAfterMathTwo) 1 "Ada" "Mathematics" batchB
        = .ok (e2, r2) ∧
      attributedQuestions e2
          (twoSubjectEvent.subjects.findIdx fun s => decide (s.subject = "Mathematics")) 1
        = batchB.map (toQuestion 1 "Ada") :=
  full_replace_amended twoSubjectEvent 1 "Ada" "Mathematics" mathBatchTwo batchB
    eventAfterMathTwo resultAfterMathTwo rfl (by decide) (by decide) (by decide) (by decide)

/-- Applying the same contribution twice to a document that stayed
active stores the same document as applying it once. -/
theorem contributeUpdate_idem (e : Event) (tid : Nat) (tname tsubject : String)
    (qs : List QuestionInput) (slot : SubjectSlot)
    (hslot : e.subjects[e.subjects.findIdx fun s => decide (s.subject = tsubject)]? = some slot)
    (hact : e.status = EventStatus.active)
    (hstill : (contributeUpdate e tid tname tsubject qs slot).status = EventStatus.active) :
    contributeUpdate (contributeUpdate e tid tname tsubject qs slot) tid tname tsubject qs
        (updatedSlot slot tid tname qs.length (qs.map (toQuestion tid tname)))
      = contributeUpdate e tid tname tsubject qs slot := by
  have hi := contributeUpdate_findIdx tid tname qs hslot
  have hsubj2 :
      (contributeUpdate (contributeUpdate e tid tname tsubject qs slot) tid tname tsubject qs
          (updatedSlot slot tid tname qs.length (qs.map (toQuestion tid tname)))).subjects
        = (contributeUpdate e tid tname tsubject qs slot).subjects := by
    rw [contributeUpdate_subjects, hi, contributeUpdate_subjects, updatedSlot_idem,
      List.set_set]
  have hC : allSubjectsComplete e.questionsPerSubject
      (contributeUpdate e tid tname tsubject qs slot).subjects = false := by
    cases hb : allSubjectsComplete e.questionsPerSubject
        (contributeUpdate e tid tname tsubject qs slot).subjects with
    | false => rfl
    | true =>
      rw [contributeUpdate_status e tid tname tsubject qs slot hact, if_pos hb] at hstill
      cases hstill
  apply Event.ext
  · rw [contributeUpdate_quota, contributeUpdate_quota]
  · rw [contributeUpdate_status _ tid tname tsubject qs _ hstill, hsubj2,
      contributeUpdate_quota, hC]
    rw [if_neg (by simp)]
    exact hstill.symm
  · exact hsubj2
  · rw [contributeUpdate_total, contributeUpdate_total, hsubj2]

/-- C8: ledger idempotence: after a successful contribution, the slot
ledger records exactly the batch length for that teacher, and repeating
the identical call stores the same document again, leaving the slot
questionCount and the ledger entry unchanged from the first call. -/
theorem ledger_idempotence (e e1 : Event) (r1 : ContribResult) (tid : Nat)
    (tname tsubject : String) (qs : List QuestionInput)
    (hact : e.status = EventStatus.active)
    (h1 : contribute (some e) tid tname tsubject qs = .ok (e1, r1)) :
    ledgerEntry e1 tsubject tid = some qs.length ∧
      contributeStored (some e1) tid tname tsubject qs = some e1 := by
  obtain ⟨slot, hqs, hact', hslot, hval, he1, hr1⟩ := contribute_ok_inv h1
  subst he1
  obtain ⟨hsub, hlt⟩ := slot_subject_of_getElem hslot
  constructor
  · unfold ledgerEntry
    have hfind : ((contributeUpdate e tid tname tsubject qs slot).subjects.find?
        fun s => decide (s.subject = tsubject))
        = some (updatedSlot slot tid tname qs.length (qs.map (toQuestion tid tname))) := by
      rw [contributeUpdate_subjects]
      exact find?_set_self _ e.subjects _ hlt (by simp [updatedSlot, hsub])
    obtain ⟨tc, htc, hcount⟩ := upsert_find? tid tname qs.length slot.teacherContributions
    simp only [hfind, updatedSlot, htc, hcount]
  · by_cases hstill : (contributeUpdate e tid tname tsubject qs slot).status
        = EventStatus.active
    · have hslot1 := contributeUpdate_getElem tid tname qs hslot
      have h2 := contribute_eq_ok (contributeUpdate e tid tname tsubject qs slot) tid tname
        tsubject qs (updatedSlot slot tid tname qs.length (qs.map (toQuestion tid tname)))
        hqs hstill hslot1 hval
      rw [contributeStored_of_ok _ _ _ _ _ _ _ h2]
      rw [contributeUpdate_idem e tid tname tsubject qs slot hslot hact hstill]
    · apply contributeStored_of_error
      rw [contribute_not_active _ _ _ _ _ hqs hstill]
      rfl

/-- C8 witness: batch A on the one-subject event records a ledger entry
of 1 and resubmitting the identical batch stores the same document. -/
theorem ledger_idempotence_witness :
    ledgerEntry eventAfterA "Mathematics" 1 = some batchA.length ∧
      contributeStored (some eventAfterA) 1 "Ada" "Mathematics" batchA = some eventAfterA :=
  ledger_idempotence oneSubjectEvent eventAfterA resultAfterA 1 "Ada" "Mathematics" batchA
    rfl (by decide)

end Smart
